import Mathlib

/-!
Shallow embedding of the job-queue / history / metadata-cache core of
`src/extension/background.js` (the final background-script iteration,
lines 1-1210).  Statuses are the four strings used by the code
("pending" / "downloading" / "completed" / "failed"); the spec calls
them Pending / Active / Completed / Failed.  Timestamps, titles and
quality descriptors are opaque payload carried along verbatim.
-/

namespace Ytdl

/-- Job status strings used by background.js ("downloading" is the
spec's `Active`). -/
inductive JobStatus where
  | pending
  | downloading
  | completed
  | failed
deriving DecidableEq, Repr

/-- One queue item, with the fields background.js reads or writes
(`addToQueue`, `processQueue`, `addToHistory`).  `quality` and
`subtitles` are opaque payload. -/
structure QueueItem where
  id : String
  videoId : String
  title : String
  channel : String
  thumbnail : String
  url : String
  quality : String
  qualityLabel : String
  subtitles : String
  status : JobStatus
  error : Option String
  retryCount : Nat
  addedAt : Nat
deriving DecidableEq, Repr

/-- One history entry, exactly the object literal built in
`addToHistory`. -/
structure HistoryEntry where
  id : String
  videoId : String
  title : String
  channel : String
  thumbnail : String
  url : String
  quality : String
  qualityLabel : String
  subtitles : String
  status : JobStatus
  error : Option String
  completedAt : Nat
  retryCount : Nat
deriving DecidableEq, Repr

/-- `MAX_HISTORY_ENTRIES` from background.js line 224. -/
def MAX_HISTORY_ENTRIES : Nat := 100

/-- The history-entry object literal built at the top of `addToHistory`:
every field is copied from the queue item, `status` is the passed
argument, `completedAt` is the wall-clock time of the call. -/
def mkHistoryEntry (item : QueueItem) (status : JobStatus) (completedAt : Nat) : HistoryEntry :=
  { id := item.id
    videoId := item.videoId
    title := item.title
    channel := item.channel
    thumbnail := item.thumbnail
    url := item.url
    quality := item.quality
    qualityLabel := item.qualityLabel
    subtitles := item.subtitles
    status := status
    error := item.error
    completedAt := completedAt
    retryCount := item.retryCount }

/-- `addToHistory(item, status)`: unshift the new entry, then
`slice(0, MAX_HISTORY_ENTRIES)` when the length exceeds the cap. -/
def addToHistory (history : List HistoryEntry) (item : QueueItem)
    (status : JobStatus) (completedAt : Nat) : List HistoryEntry :=
  let h := mkHistoryEntry item status completedAt :: history
  if h.length > MAX_HISTORY_ENTRIES then h.take MAX_HISTORY_ENTRIES else h

/-- Return shape of `getHistory()`. -/
structure HistoryView where
  history : List HistoryEntry
  totalCompleted : Nat
  totalFailed : Nat
deriving DecidableEq, Repr

/-- `getHistory()`: the list plus the counts of completed and failed
entries. -/
def getHistory (history : List HistoryEntry) : HistoryView :=
  { history := history
    totalCompleted := (history.filter (fun h => h.status == JobStatus.completed)).length
    totalFailed := (history.filter (fun h => h.status == JobStatus.failed)).length }

/-- `clearFailedFromHistory()`: keep only the entries whose status is
not "failed". -/
def clearFailedFromHistory (history : List HistoryEntry) : List HistoryEntry :=
  history.filter (fun h => !(h.status == JobStatus.failed))

/-- `removeFromHistory(id)`: `findIndex` by id, `splice` out the first
match; returns whether an entry was found. -/
def removeFromHistory (history : List HistoryEntry) (id : String) :
    List HistoryEntry × Bool :=
  if history.any (fun h => h.id == id)
  then (history.eraseP (fun h => h.id == id), true)
  else (history, false)

/-- Duplicate test inside `addToQueue`: some queued item has the same
`videoId` and status "pending" or "downloading". -/
def hasActiveDuplicate (queue : List QueueItem) (videoId : String) : Bool :=
  queue.any (fun q =>
    q.videoId == videoId &&
      (q.status == JobStatus.pending || q.status == JobStatus.downloading))

/-- `addToQueue(item)`: reject duplicates (queue untouched), otherwise
push at the end and report the new queue length. -/
def addToQueue (queue : List QueueItem) (item : QueueItem) :
    List QueueItem × Except String Nat :=
  if hasActiveDuplicate queue item.videoId
  then (queue, Except.error "Video already in queue")
  else (queue ++ [item], Except.ok (queue.length + 1))

/-- The fresh queue item built by `retryFromHistory` from a history
entry: new id, status "pending", no error, `retryCount` old + 1. -/
def retryNewItem (hi : HistoryEntry) (freshId : String) (addedAt : Nat) : QueueItem :=
  { id := freshId
    videoId := hi.videoId
    title := hi.title
    channel := hi.channel
    thumbnail := hi.thumbnail
    url := hi.url
    quality := hi.quality
    qualityLabel := hi.qualityLabel
    subtitles := hi.subtitles
    status := JobStatus.pending
    error := none
    retryCount := hi.retryCount + 1
    addedAt := addedAt }

/-- Combined result of `retryFromHistory`: the history and queue after
the call, and the `{success, queueLength}` / `{success:false, error}`
outcome. -/
structure RetryOutcome where
  history : List HistoryEntry
  queue : List QueueItem
  result : Except String Nat
deriving Repr

/-- `retryFromHistory(id)`: find the entry; not found or not "failed"
is an error with no mutation; otherwise build the new item, remove the
entry from history, then `addToQueue` the new item (whose duplicate
error, if any, is returned as-is).  `freshId` stands for the
`retry_${Date.now()}_${random}` string generated by the code. -/
def retryFromHistory (history : List HistoryEntry) (queue : List QueueItem)
    (id freshId : String) (addedAt : Nat) : RetryOutcome :=
  match history.find? (fun h => h.id == id) with
  | none => ⟨history, queue, Except.error "Item not found in history"⟩
  | some hi =>
    if hi.status != JobStatus.failed then
      ⟨history, queue, Except.error "Only failed downloads can be retried"⟩
    else
      let newItem := retryNewItem hi freshId addedAt
      let history2 := (removeFromHistory history id).1
      let (queue2, res) := addToQueue queue newItem
      ⟨history2, queue2, res⟩

/-- The map applied by `initializeQueue` to the persisted queue blob:
"downloading" items are reset to "pending", everything else is kept
verbatim.  `initializeQueue` applies this (and saves) before its call
to `processQueue`, so the reset happens before the loop runs. -/
def resetQueueOnLoad (persisted : List QueueItem) : List QueueItem :=
  persisted.map (fun item =>
    if item.status == JobStatus.downloading
    then { item with status := JobStatus.pending }
    else item)

/-- Mutable background-script state touched by the execution loop:
`downloadQueue`, `downloadHistory` and the `isProcessingQueue` flag. -/
structure QMState where
  queue : List QueueItem
  history : List HistoryEntry
  isProcessing : Bool
deriving DecidableEq, Repr

/-- Return shape of `getQueueState()`. -/
structure QueueView where
  queue : List QueueItem
  isProcessing : Bool
deriving DecidableEq, Repr

/-- `getQueueState()`: the job list plus the processing flag. -/
def getQueueState (s : QMState) : QueueView :=
  ⟨s.queue, s.isProcessing⟩

/-- Terminal result of the awaited `handleDownload` call inside
`processQueue`: the promise resolves with `{success:true}`, resolves
with a falsy/unsuccessful result (optionally carrying an error
message), or rejects with an exception (optionally carrying a
message). -/
inductive ExecOutcome where
  | ok
  | failure (err : Option String)
  | exn (msg : Option String)
deriving DecidableEq, Repr

/-- The in-place mutation `processQueue` applies to `nextItem` once the
download result is in: "completed" on success, otherwise "failed" with
the error message from whichever failure path fired. -/
def terminalOf (item : QueueItem) (outcome : ExecOutcome) : QueueItem :=
  match outcome with
  | ExecOutcome.ok => { item with status := JobStatus.completed }
  | ExecOutcome.failure e =>
      { item with status := JobStatus.failed, error := some (e.getD "Download failed") }
  | ExecOutcome.exn m =>
      { item with status := JobStatus.failed, error := some (m.getD "Unknown error") }

/-- Replace the first "pending" item of the list by its image under
`f`, leaving everything else in place — this is the effect of the
in-place mutations of `nextItem` (`pendingItems[0]`) on the queue
array. -/
def updateFirstPending (f : QueueItem → QueueItem) : List QueueItem → List QueueItem
  | [] => []
  | it :: rest =>
    if it.status == JobStatus.pending then f it :: rest
    else it :: updateFirstPending f rest

/-- State observable while `processQueue` awaits `handleDownload`:
guard taken, the first pending item marked "downloading".  A pass with
the guard already set, or with no pending item, changes nothing. -/
def processQueueMid (s : QMState) : QMState :=
  if s.isProcessing then s
  else
    match s.queue.find? (fun it => it.status == JobStatus.pending) with
    | none => s
    | some _ =>
      { queue := updateFirstPending
          (fun it => { it with status := JobStatus.downloading }) s.queue
        history := s.history
        isProcessing := true }

/-- One full pass of `processQueue`, driven by the download outcome:
guard check, pick the first pending item, mark it "downloading", await
the download, record the terminal status (and error) in place, append
the terminal item to history via `addToHistory`, clear the guard.  The
item is never removed from the queue. -/
def processQueuePass (s : QMState) (outcome : ExecOutcome) (completedAt : Nat) : QMState :=
  if s.isProcessing then s
  else
    match s.queue.find? (fun it => it.status == JobStatus.pending) with
    | none => s
    | some nextItem =>
      let term := terminalOf nextItem outcome
      { queue := updateFirstPending (fun it => terminalOf it outcome) s.queue
        history := addToHistory s.history term term.status completedAt
        isProcessing := false }

/-- Jobs currently "downloading" (the spec's `Active`). -/
def countDownloading (queue : List QueueItem) : Nat :=
  (queue.filter (fun it => it.status == JobStatus.downloading)).length

/-- A cache slot of `videoInfoCache`: either the
`{fetching:true, timestamp}` marker or a ready
`{data, timestamp, fetching:false}` record; absence is "not in the
map".  The metadata payload is opaque. -/
inductive CacheEntry where
  | fetching (timestamp : Int)
  | ready (data : String) (timestamp : Int)
deriving DecidableEq, Repr

/-- `CACHE_TTL` from background.js line 221: five minutes in
milliseconds. -/
def CACHE_TTL : Int := 5 * 60 * 1000

/-- `videoInfoCache` as an insertion-ordered association list with
unique keys, the semantics of a JS `Map`. -/
abbrev Cache := List (String × CacheEntry)

/-- `Map.get`. -/
def mapGet (m : Cache) (k : String) : Option CacheEntry :=
  (m.find? (fun p => p.1 == k)).map (fun p => p.2)

/-- `Map.set`: overwrite in place if the key exists, else append. -/
def mapSet (m : Cache) (k : String) (v : CacheEntry) : Cache :=
  match m with
  | [] => [(k, v)]
  | (k2, v2) :: rest =>
    if k2 == k then (k, v) :: rest else (k2, v2) :: mapSet rest k v

/-- `Map.delete`. -/
def mapDelete (m : Cache) (k : String) : Cache :=
  m.filter (fun p => !(p.1 == k))

/-- `getCachedInfo(videoId)`: an un-expired ready entry is a hit (cache
untouched); a fetching entry yields null (kept); an expired ready
entry is deleted and yields null; a missing key yields null. -/
def getCachedInfo (cache : Cache) (videoId : String) (now : Int) :
    Option String × Cache :=
  match mapGet cache videoId with
  | some (CacheEntry.ready d ts) =>
    if now - ts < CACHE_TTL then (some d, cache)
    else (none, mapDelete cache videoId)
  | some (CacheEntry.fetching _) => (none, cache)
  | none => (none, cache)

/-- Outcome of the awaited `fetch` of `/info` inside
`prefetchVideoInfo`: HTTP ok with `data.success` true, HTTP ok with
`data.success` false, a non-ok response, or a thrown exception. -/
inductive FetchResult where
  | success (data : String)
  | logicalFailure
  | httpError
  | exception
deriving DecidableEq, Repr

/-- The skip guard at the top of `prefetchVideoInfo`: an existing
entry that is fetching, or whose timestamp is within the TTL, makes
the call return before any mutation. -/
def prefetchSkip (cache : Cache) (videoId : String) (now : Int) : Bool :=
  match mapGet cache videoId with
  | some (CacheEntry.fetching _) => true
  | some (CacheEntry.ready _ ts) => decide (now - ts < CACHE_TTL)
  | none => false

/-- The single-flight claim inside `prefetchVideoInfo`:
`videoInfoCache.set(videoId, {fetching:true, timestamp:Date.now()})`. -/
def prefetchMark (cache : Cache) (videoId : String) (now : Int) : Cache :=
  mapSet cache videoId (CacheEntry.fetching now)

/-- `prefetchVideoInfo(url, videoId)` as a whole, driven by the fetch
outcome: skip if the guard fires; otherwise mark fetching, then on
success store the ready data with a fresh timestamp `fetchedAt`, and
on any failure path delete the entry.  All failure paths are caught,
so nothing escapes the function. -/
def prefetchVideoInfo (cache : Cache) (videoId : String) (now fetchedAt : Int)
    (result : FetchResult) : Cache :=
  if prefetchSkip cache videoId now then cache
  else
    let marked := prefetchMark cache videoId now
    match result with
    | FetchResult.success d => mapSet marked videoId (CacheEntry.ready d fetchedAt)
    | _ => mapDelete marked videoId

/-- Concrete pending job used to instantiate theorems on small
inputs. -/
def exJob : QueueItem :=
  { id := "j1", videoId := "v1", title := "t", channel := "c", thumbnail := "th"
    url := "u", quality := "q", qualityLabel := "ql", subtitles := "s"
    status := JobStatus.pending, error := none, retryCount := 0, addedAt := 0 }

/-- Concrete failed history entry used to instantiate theorems on
small inputs. -/
def exFailedEntry : HistoryEntry :=
  { id := "h1", videoId := "v1", title := "t", channel := "c", thumbnail := "th"
    url := "u", quality := "q", qualityLabel := "ql", subtitles := "s"
    status := JobStatus.failed, error := some "network down", completedAt := 1
    retryCount := 0 }

theorem hasActiveDuplicate_iff (queue : List QueueItem) (vid : String) :
    hasActiveDuplicate queue vid = true ↔
      ∃ q ∈ queue, q.videoId = vid ∧
        (q.status = JobStatus.pending ∨ q.status = JobStatus.downloading) := by
  simp [hasActiveDuplicate, List.any_eq_true]

/-- C3: enqueue rejects (with the duplicate error and the queue left
unchanged) exactly when some queued job shares the new job's videoId
with status "pending" or "downloading"; otherwise it appends the job
at the end and returns the new queue length. -/
theorem C3_enqueue_duplicate_suppression (queue : List QueueItem) (item : QueueItem) :
    ((∃ q ∈ queue, q.videoId = item.videoId ∧
        (q.status = JobStatus.pending ∨ q.status = JobStatus.downloading)) →
      addToQueue queue item = (queue, Except.error "Video already in queue")) ∧
    ((¬ ∃ q ∈ queue, q.videoId = item.videoId ∧
        (q.status = JobStatus.pending ∨ q.status = JobStatus.downloading)) →
      addToQueue queue item = (queue ++ [item], Except.ok (queue.length + 1))) := by
  constructor
  · intro h
    have hd : hasActiveDuplicate queue item.videoId = true :=
      (hasActiveDuplicate_iff queue item.videoId).mpr h
    simp [addToQueue, hd]
  · intro h
    have hd : hasActiveDuplicate queue item.videoId = false := by
      by_contra hc
      exact h ((hasActiveDuplicate_iff queue item.videoId).mp
        (by revert hc; cases hasActiveDuplicate queue item.videoId <;> simp))
    simp [addToQueue, hd]

/-- Witness for C3 at concrete inputs: a pending duplicate is
rejected; an empty queue accepts. -/
theorem C3_enqueue_duplicate_suppression_witness :
    addToQueue [exJob] { exJob with id := "j2" }
      = ([exJob], Except.error "Video already in queue") ∧
    addToQueue [] exJob = ([exJob], Except.ok 1) :=
  ⟨(C3_enqueue_duplicate_suppression [exJob] { exJob with id := "j2" }).1
      ⟨exJob, by simp, rfl, Or.inl rfl⟩,
    (C3_enqueue_duplicate_suppression [] exJob).2 (by simp)⟩

/-- C4: the startup reset maps every persisted "downloading" job to
"pending" and leaves every other job byte-for-byte unchanged (length
and positions preserved); `initializeQueue` applies it before its
`processQueue` call. -/
theorem C4_startup_reset (persisted : List QueueItem) (i : Nat) :
    (resetQueueOnLoad persisted).length = persisted.length ∧
    (resetQueueOnLoad persisted)[i]? = (persisted[i]?).map (fun it =>
      if it.status = JobStatus.downloading
      then { it with status := JobStatus.pending } else it) := by
  refine ⟨by simp [resetQueueOnLoad], ?_⟩
  simp [resetQueueOnLoad]

/-- C6: recording into a history of length exactly 100 puts the new
entry at index 0, drops the oldest (the last) entry and leaves exactly
100; recording into a shorter history prepends and grows the length
by one. -/
theorem C6_history_cap (history : List HistoryEntry) (item : QueueItem)
    (status : JobStatus) (t : Nat) :
    (history.length = 100 →
      addToHistory history item status t
          = mkHistoryEntry item status t :: history.take 99 ∧
      (addToHistory history item status t).length = 100) ∧
    (history.length < 100 →
      addToHistory history item status t
          = mkHistoryEntry item status t :: history ∧
      (addToHistory history item status t).length = history.length + 1) := by
  constructor
  · intro h100
    have hgt : (mkHistoryEntry item status t :: history).length > MAX_HISTORY_ENTRIES := by
      simp [h100, MAX_HISTORY_ENTRIES]
    constructor
    · simp [addToHistory, hgt, MAX_HISTORY_ENTRIES, List.take_succ_cons]
    · simp [addToHistory, hgt, MAX_HISTORY_ENTRIES, h100]
  · intro hlt
    have hif : ¬ MAX_HISTORY_ENTRIES < history.length + 1 := by
      simp [MAX_HISTORY_ENTRIES]; omega
    constructor
    · simp [addToHistory, hif]
    · simp [addToHistory, hif]

/-- Witness for C6 at concrete inputs: a history of 100 copies of a
fixed entry stays at 100 with the new entry in front; the empty
history grows to length 1. -/
theorem C6_history_cap_witness :
    (addToHistory (List.replicate 100 exFailedEntry) exJob JobStatus.completed 3
        = mkHistoryEntry exJob JobStatus.completed 3
            :: (List.replicate 100 exFailedEntry).take 99 ∧
      (addToHistory (List.replicate 100 exFailedEntry) exJob JobStatus.completed 3).length
        = 100) ∧
    (addToHistory [] exJob JobStatus.completed 3
        = mkHistoryEntry exJob JobStatus.completed 3 :: [] ∧
      (addToHistory [] exJob JobStatus.completed 3).length = 0 + 1) :=
  ⟨(C6_history_cap (List.replicate 100 exFailedEntry) exJob JobStatus.completed 3).1
      (by simp),
    (C6_history_cap [] exJob JobStatus.completed 3).2 (by simp)⟩

theorem mapGet_mapSet_self (m : Cache) (k : String) (v : CacheEntry) :
    mapGet (mapSet m k v) k = some v := by
  induction m with
  | nil => simp [mapSet, mapGet]
  | cons p rest ih =>
    obtain ⟨k2, v2⟩ := p
    cases hpk : k2 == k with
    | true => simp [mapSet, hpk, mapGet]
    | false =>
      simp only [mapSet, hpk, if_false, Bool.false_eq_true]
      simpa [mapGet, List.find?, hpk] using ih

theorem mapGet_mapDelete_self (m : Cache) (k : String) :
    mapGet (mapDelete m k) k = none := by
  have h : (mapDelete m k).find? (fun p => p.1 == k) = none := by
    rw [List.find?_eq_none]
    intro p hp
    have h2 : ¬ p.1 = k := by
      simp [mapDelete] at hp
      exact hp.2
    simp [h2]
  simp [mapGet, h]

/-- C8: an un-expired ready cache entry is returned with the cache
untouched; an expired ready entry yields `none` and the entry is
deleted as a side effect (a subsequent get misses); an absent key
yields `none` with no mutation.  `getCachedInfo` is a total
synchronous function — it never blocks. -/
theorem C8_cache_ttl (cache : Cache) (videoId : String) (now : Int) :
    (∀ d ts, mapGet cache videoId = some (CacheEntry.ready d ts) →
      now - ts < CACHE_TTL →
      getCachedInfo cache videoId now = (some d, cache)) ∧
    (∀ d ts, mapGet cache videoId = some (CacheEntry.ready d ts) →
      CACHE_TTL ≤ now - ts →
      getCachedInfo cache videoId now = (none, mapDelete cache videoId) ∧
      mapGet (getCachedInfo cache videoId now).2 videoId = none) ∧
    (mapGet cache videoId = none →
      getCachedInfo cache videoId now = (none, cache)) := by
  refine ⟨?_, ?_, ?_⟩
  · intro d ts h hlt
    simp [getCachedInfo, h, hlt]
  · intro d ts h hge
    have hnlt : ¬ now - ts < CACHE_TTL := not_lt.mpr hge
    exact ⟨by simp [getCachedInfo, h, hnlt],
      by simp [getCachedInfo, h, hnlt, mapGet_mapDelete_self]⟩
  · intro h
    simp [getCachedInfo, h]

/-- Witness for C8 at concrete inputs: a ready entry written at time 0
hits at time 1, and at time `CACHE_TTL` it misses and is evicted; a
lookup on the empty cache misses. -/
theorem C8_cache_ttl_witness :
    getCachedInfo [("v1", CacheEntry.ready "DATA" 0)] "v1" 1
      = (some "DATA", [("v1", CacheEntry.ready "DATA" 0)]) ∧
    (getCachedInfo [("v1", CacheEntry.ready "DATA" 0)] "v1" CACHE_TTL
        = (none, mapDelete [("v1", CacheEntry.ready "DATA" 0)] "v1") ∧
      mapGet (getCachedInfo [("v1", CacheEntry.ready "DATA" 0)] "v1" CACHE_TTL).2 "v1"
        = none) ∧
    getCachedInfo [] "v1" 7 = (none, []) :=
  ⟨(C8_cache_ttl [("v1", CacheEntry.ready "DATA" 0)] "v1" 1).1 "DATA" 0
      (by simp [mapGet]) (by decide),
    (C8_cache_ttl [("v1", CacheEntry.ready "DATA" 0)] "v1" CACHE_TTL).2.1 "DATA" 0
      (by simp [mapGet]) (by decide),
    (C8_cache_ttl [] "v1" 7).2.2 rfl⟩

/-- C9: prefetch is a no-op when the entry is already fetching or is
un-expired ready; otherwise the entry is first claimed as fetching,
and afterwards holds the ready data with the fresh timestamp on
resolver success, and is gone from the cache on logical failure,
HTTP error or exception — never left fetching and never ready with
bad data.  `prefetchVideoInfo` is total: no failure escapes it. -/
theorem C9_prefetch_single_flight (cache : Cache) (videoId : String)
    (now fetchedAt : Int) (r : FetchResult) :
    (∀ ts, mapGet cache videoId = some (CacheEntry.fetching ts) →
      prefetchVideoInfo cache videoId now fetchedAt r = cache) ∧
    (∀ d ts, mapGet cache videoId = some (CacheEntry.ready d ts) →
      now - ts < CACHE_TTL →
      prefetchVideoInfo cache videoId now fetchedAt r = cache) ∧
    (prefetchSkip cache videoId now = false →
      mapGet (prefetchMark cache videoId now) videoId
          = some (CacheEntry.fetching now) ∧
      (∀ d, r = FetchResult.success d →
        mapGet (prefetchVideoInfo cache videoId now fetchedAt r) videoId
          = some (CacheEntry.ready d fetchedAt)) ∧
      ((∀ d, r ≠ FetchResult.success d) →
        mapGet (prefetchVideoInfo cache videoId now fetchedAt r) videoId
          = none)) := by
  refine ⟨?_, ?_, ?_⟩
  · intro ts h
    simp [prefetchVideoInfo, prefetchSkip, h]
  · intro d ts h hlt
    simp [prefetchVideoInfo, prefetchSkip, h, hlt]
  · intro hskip
    refine ⟨mapGet_mapSet_self cache videoId _, ?_, ?_⟩
    · intro d hr
      subst hr
      simp [prefetchVideoInfo, hskip, prefetchMark, mapGet_mapSet_self]
    · intro hr
      cases r with
      | success d => exact absurd rfl (hr d)
      | logicalFailure => simp [prefetchVideoInfo, hskip, mapGet_mapDelete_self]
      | httpError => simp [prefetchVideoInfo, hskip, mapGet_mapDelete_self]
      | exception => simp [prefetchVideoInfo, hskip, mapGet_mapDelete_self]

/-- Witness for C9 at concrete inputs: a fetching entry suppresses the
prefetch; starting from the empty cache, the mark claims single-flight
ownership and a successful resolve stores the ready data, while an
exception leaves no entry behind. -/
theorem C9_prefetch_single_flight_witness :
    prefetchVideoInfo [("v1", CacheEntry.fetching 0)] "v1" 1 2 FetchResult.exception
      = [("v1", CacheEntry.fetching 0)] ∧
    mapGet (prefetchMark [] "v1" 4) "v1" = some (CacheEntry.fetching 4) ∧
    mapGet (prefetchVideoInfo [] "v1" 4 9 (FetchResult.success "DATA")) "v1"
      = some (CacheEntry.ready "DATA" 9) ∧
    mapGet (prefetchVideoInfo [] "v1" 4 9 FetchResult.exception) "v1" = none :=
  ⟨(C9_prefetch_single_flight [("v1", CacheEntry.fetching 0)] "v1" 1 2
      FetchResult.exception).1 0 (by simp [mapGet]),
    ((C9_prefetch_single_flight [] "v1" 4 9 (FetchResult.success "DATA")).2.2
      rfl).1,
    ((C9_prefetch_single_flight [] "v1" 4 9 (FetchResult.success "DATA")).2.2
      rfl).2.1 "DATA" rfl,
    ((C9_prefetch_single_flight [] "v1" 4 9 FetchResult.exception).2.2
      rfl).2.2 (by intro d h; cases h)⟩

theorem removeFromHistory_of_found (history : List HistoryEntry) (id : String)
    (hi : HistoryEntry) (hfind : history.find? (fun h => h.id == id) = some hi) :
    (removeFromHistory history id).1 = history.eraseP (fun h => h.id == id) := by
  have hmem : hi ∈ history := List.mem_of_find?_eq_some hfind
  have hp : (hi.id == id) = true := by
    have h0 := List.find?_some hfind
    simpa using h0
  have hany : history.any (fun h => h.id == id) = true :=
    List.any_eq_true.mpr ⟨hi, hmem, hp⟩
  simp [removeFromHistory, hany]

/-- C7: retrying a failed history entry removes it from the history
list and submits to `addToQueue` a fresh job — pending, no error, a
newly generated id distinct from the entry's id, `retryCount` old + 1;
when no duplicate blocks admission the job lands at the end of the
queue.  Retrying a completed entry, or an unknown id, returns an error
and changes nothing. -/
theorem C7_retry_semantics (history : List HistoryEntry) (queue : List QueueItem)
    (id freshId : String) (t : Nat) :
    (∀ hi, history.find? (fun h => h.id == id) = some hi →
      hi.status = JobStatus.failed → freshId ≠ hi.id →
      (retryFromHistory history queue id freshId t).history
          = history.eraseP (fun h => h.id == id) ∧
      (retryFromHistory history queue id freshId t).history.length + 1
          = history.length ∧
      (retryNewItem hi freshId t).id ≠ hi.id ∧
      (retryNewItem hi freshId t).retryCount = hi.retryCount + 1 ∧
      (retryNewItem hi freshId t).status = JobStatus.pending ∧
      (hasActiveDuplicate queue hi.videoId = false →
        (retryFromHistory history queue id freshId t).queue
            = queue ++ [retryNewItem hi freshId t] ∧
        (retryFromHistory history queue id freshId t).result
            = Except.ok (queue.length + 1))) ∧
    (∀ hi, history.find? (fun h => h.id == id) = some hi →
      hi.status = JobStatus.completed →
      retryFromHistory history queue id freshId t
          = ⟨history, queue, Except.error "Only failed downloads can be retried"⟩) ∧
    (history.find? (fun h => h.id == id) = none →
      retryFromHistory history queue id freshId t
          = ⟨history, queue, Except.error "Item not found in history"⟩) := by
  refine ⟨?_, ?_, ?_⟩
  · intro hi hfind hfail hfresh
    have hrm := removeFromHistory_of_found history id hi hfind
    have hmem : hi ∈ history := List.mem_of_find?_eq_some hfind
    have hp : (hi.id == id) = true := by
      have h0 := List.find?_some hfind
      simpa using h0
    refine ⟨?_, ?_, by simpa [retryNewItem] using hfresh, rfl, rfl, ?_⟩
    · simp [retryFromHistory, hfind, hfail, hrm, addToQueue]
    · rw [show (retryFromHistory history queue id freshId t).history
            = history.eraseP (fun h => h.id == id) from by
          simp [retryFromHistory, hfind, hfail, hrm, addToQueue]]
      exact List.length_eraseP_add_one hmem hp
    · intro hdup
      have hvid : (retryNewItem hi freshId t).videoId = hi.videoId := rfl
      constructor
      · simp [retryFromHistory, hfind, hfail, addToQueue, hvid, hdup]
      · simp [retryFromHistory, hfind, hfail, addToQueue, hvid, hdup]
  · intro hi hfind hcomp
    simp [retryFromHistory, hfind, hcomp]
  · intro hfind
    simp [retryFromHistory, hfind]

/-- Witness for C7 at concrete inputs: a failed entry is removed and
resubmitted with a fresh id and bumped `retryCount`; a completed entry
and an unknown id are rejected with no state change. -/
theorem C7_retry_semantics_witness :
    ((retryFromHistory [exFailedEntry] [] "h1" "r1" 5).history
        = List.eraseP (fun h => h.id == "h1") [exFailedEntry] ∧
      (retryFromHistory [exFailedEntry] [] "h1" "r1" 5).history.length + 1
        = ([exFailedEntry] : List HistoryEntry).length ∧
      (retryNewItem exFailedEntry "r1" 5).id ≠ exFailedEntry.id ∧
      (retryNewItem exFailedEntry "r1" 5).retryCount = exFailedEntry.retryCount + 1 ∧
      (retryNewItem exFailedEntry "r1" 5).status = JobStatus.pending ∧
      (hasActiveDuplicate [] exFailedEntry.videoId = false →
        (retryFromHistory [exFailedEntry] [] "h1" "r1" 5).queue
          = [] ++ [retryNewItem exFailedEntry "r1" 5] ∧
        (retryFromHistory [exFailedEntry] [] "h1" "r1" 5).result
          = Except.ok (List.length ([] : List QueueItem) + 1))) ∧
    retryFromHistory [{ exFailedEntry with id := "h2", status := JobStatus.completed }]
        [] "h2" "r1" 5
      = ⟨[{ exFailedEntry with id := "h2", status := JobStatus.completed }], [],
          Except.error "Only failed downloads can be retried"⟩ ∧
    retryFromHistory [] [] "nope" "r1" 5
      = ⟨[], [], Except.error "Item not found in history"⟩ := by
  refine ⟨?_, ?_, ?_⟩
  · have h := (C7_retry_semantics [exFailedEntry] [] "h1" "r1" 5).1 exFailedEntry
      (by simp [exFailedEntry]) rfl (by decide)
    exact h
  · exact (C7_retry_semantics
      [{ exFailedEntry with id := "h2", status := JobStatus.completed }] [] "h2" "r1" 5).2.1
      { exFailedEntry with id := "h2", status := JobStatus.completed }
      (by simp) rfl
  · exact (C7_retry_semantics [] [] "nope" "r1" 5).2.2 rfl

/-- Counterexample for C2 as stated: a failed history entry for "v1"
is retried while a pending job for "v1" sits in the queue.  The retry
returns the duplicate-suppression failure, yet prior state was NOT
left unchanged: the history entry has already been removed (history is
empty afterwards), so the entry is not "still present in History". -/
theorem C2_counterexample :
    (retryFromHistory [exFailedEntry] [exJob] "h1" "r1" 5).result
        = Except.error "Video already in queue" ∧
    (retryFromHistory [exFailedEntry] [exJob] "h1" "r1" 5).history = [] ∧
    (retryFromHistory [exFailedEntry] [exJob] "h1" "r1" 5).queue = [exJob] :=
  ⟨rfl, rfl, rfl⟩

/-- C2 amended: when retry on a failed entry propagates the
duplicate-suppression error from enqueue, the queue is left unchanged,
but the history entry is NOT still present — it was removed before the
enqueue check and is not restored (the history afterwards is the
original with that entry erased, one entry shorter). -/
theorem C2_retry_duplicate_removes_entry (history : List HistoryEntry)
    (queue : List QueueItem) (id freshId : String) (t : Nat) (hi : HistoryEntry)
    (hfind : history.find? (fun h => h.id == id) = some hi)
    (hfail : hi.status = JobStatus.failed)
    (hdup : hasActiveDuplicate queue hi.videoId = true) :
    (retryFromHistory history queue id freshId t).result
        = Except.error "Video already in queue" ∧
    (retryFromHistory history queue id freshId t).queue = queue ∧
    (retryFromHistory history queue id freshId t).history
        = history.eraseP (fun h => h.id == id) ∧
    (retryFromHistory history queue id freshId t).history.length + 1
        = history.length := by
  have hrm := removeFromHistory_of_found history id hi hfind
  have hmem : hi ∈ history := List.mem_of_find?_eq_some hfind
  have hp : (hi.id == id) = true := by
    have h0 := List.find?_some hfind
    simpa using h0
  have hvid : (retryNewItem hi freshId t).videoId = hi.videoId := rfl
  refine ⟨?_, ?_, ?_, ?_⟩
  · simp [retryFromHistory, hfind, hfail, addToQueue, hvid, hdup]
  · simp [retryFromHistory, hfind, hfail, addToQueue, hvid, hdup]
  · simp [retryFromHistory, hfind, hfail, addToQueue, hvid, hdup, hrm]
  · rw [show (retryFromHistory history queue id freshId t).history
          = history.eraseP (fun h => h.id == id) from by
        simp [retryFromHistory, hfind, hfail, addToQueue, hvid, hdup, hrm]]
    exact List.length_eraseP_add_one hmem hp

/-- Witness for the amended C2 at the counterexample input. -/
theorem C2_retry_duplicate_removes_entry_witness :
    (retryFromHistory [exFailedEntry] [exJob] "h1" "r1" 5).result
        = Except.error "Video already in queue" ∧
    (retryFromHistory [exFailedEntry] [exJob] "h1" "r1" 5).queue = [exJob] ∧
    (retryFromHistory [exFailedEntry] [exJob] "h1" "r1" 5).history
        = List.eraseP (fun h => h.id == "h1") [exFailedEntry] ∧
    (retryFromHistory [exFailedEntry] [exJob] "h1" "r1" 5).history.length + 1
        = ([exFailedEntry] : List HistoryEntry).length :=
  C2_retry_duplicate_removes_entry [exFailedEntry] [exJob] "h1" "r1" 5 exFailedEntry
    (by simp [exFailedEntry]) rfl (by decide)

theorem terminalOf_id (it : QueueItem) (o : ExecOutcome) :
    (terminalOf it o).id = it.id := by
  cases o <;> rfl

theorem terminalOf_status_not_pending (it : QueueItem) (o : ExecOutcome) :
    ((terminalOf it o).status == JobStatus.pending) = false := by
  cases o <;> rfl

theorem terminalOf_status_not_downloading (it : QueueItem) (o : ExecOutcome) :
    ((terminalOf it o).status == JobStatus.downloading) = false := by
  cases o <;> rfl

theorem terminalOf_terminal (it : QueueItem) (o : ExecOutcome) :
    ((terminalOf it o).status == JobStatus.completed
      || (terminalOf it o).status == JobStatus.failed) = true := by
  cases o <;> rfl

theorem updateFirstPending_map_id (f : QueueItem → QueueItem)
    (hf : ∀ it, (f it).id = it.id) (q : List QueueItem) :
    (updateFirstPending f q).map (fun it => it.id) = q.map (fun it => it.id) := by
  induction q with
  | nil => rfl
  | cons it rest ih =>
    by_cases h : (it.status == JobStatus.pending) = true
    · simp [updateFirstPending, h, hf]
    · simp [updateFirstPending, h, ih]

theorem updateFirstPending_any_found (f : QueueItem → QueueItem) (q : List QueueItem)
    (item : QueueItem)
    (hfind : q.find? (fun it => it.status == JobStatus.pending) = some item)
    (p : QueueItem → Bool) (hp : p (f item) = true) :
    (updateFirstPending f q).any p = true := by
  induction q with
  | nil => simp [List.find?] at hfind
  | cons it rest ih =>
    by_cases h : (it.status == JobStatus.pending) = true
    · have h2 : List.find? (fun x => x.status == JobStatus.pending) (it :: rest)
          = some it := List.find?_cons_of_pos _ h
      have h3 : it = item := Option.some.inj (h2.symm.trans hfind)
      subst h3
      simp [updateFirstPending, h, hp]
    · have h2 : List.find? (fun x => x.status == JobStatus.pending) (it :: rest)
          = List.find? (fun x => x.status == JobStatus.pending) rest :=
        List.find?_cons_of_neg _ (by simpa using h)
      have h4 := ih (h2.symm.trans hfind)
      simp [updateFirstPending, h, h4]

theorem addToHistory_head (history : List HistoryEntry) (item : QueueItem)
    (status : JobStatus) (t : Nat) :
    (addToHistory history item status t).head? = some (mkHistoryEntry item status t) := by
  by_cases h : MAX_HISTORY_ENTRIES < history.length + 1
  · rw [show addToHistory history item status t
        = List.take MAX_HISTORY_ENTRIES (mkHistoryEntry item status t :: history) from by
      simp [addToHistory, h]]
    rw [show MAX_HISTORY_ENTRIES = 99 + 1 from by decide, List.take_succ_cons]
    rfl
  · rw [show addToHistory history item status t
        = mkHistoryEntry item status t :: history from by simp [addToHistory, h]]
    rfl

/-- Counterexample for C1 as stated: enqueue a single pending job
"j1", run one execution-loop pass with a successful download.  The
terminal outcome IS recorded into History, but the job is NOT removed
from the queue: `getQueueState` still returns it (now with status
"completed"), so History and Queue both hold the same logical
attempt after the pass. -/
theorem C1_counterexample :
    ((getQueueState (processQueuePass ⟨[exJob], [], false⟩ ExecOutcome.ok 5)).queue.any
        (fun it => it.id == "j1")) = true ∧
    ((processQueuePass ⟨[exJob], [], false⟩ ExecOutcome.ok 5).history.any
        (fun h => h.id == "j1")) = true ∧
    (getQueueState (processQueuePass ⟨[exJob], [], false⟩ ExecOutcome.ok 5)).queue
        = [{ exJob with status := JobStatus.completed }] :=
  ⟨rfl, rfl, rfl⟩

/-- C1 amended: when a Job reaches a terminal state during an
execution-loop pass, it is NOT removed from the queue: the queue keeps
the same length and the same ids in the same order, the processed job
is still present with a terminal status, and the terminal outcome is
additionally recorded at the head of History — queue and History hold
the attempt simultaneously until an explicit remove/clear command. -/
theorem C1_terminal_job_not_removed (s : QMState) (o : ExecOutcome) (t : Nat)
    (item : QueueItem)
    (hp : s.isProcessing = false)
    (hfind : s.queue.find? (fun it => it.status == JobStatus.pending) = some item) :
    ((getQueueState (processQueuePass s o t)).queue.map (fun it => it.id)
        = s.queue.map (fun it => it.id)) ∧
    (getQueueState (processQueuePass s o t)).queue.length = s.queue.length ∧
    ((getQueueState (processQueuePass s o t)).queue.any
        (fun it => it.id == item.id &&
          (it.status == JobStatus.completed || it.status == JobStatus.failed))) = true ∧
    (processQueuePass s o t).history.head?
        = some (mkHistoryEntry (terminalOf item o) (terminalOf item o).status t) := by
  have hpass : processQueuePass s o t =
      { queue := updateFirstPending (fun it => terminalOf it o) s.queue
        history := addToHistory s.history (terminalOf item o) (terminalOf item o).status t
        isProcessing := false } := by
    simp [processQueuePass, hp, hfind]
  have hmap := updateFirstPending_map_id (fun it => terminalOf it o)
    (fun it => terminalOf_id it o) s.queue
  refine ⟨?_, ?_, ?_, ?_⟩
  · rw [hpass]; exact hmap
  · rw [hpass]
    have hlen := congrArg List.length hmap
    simpa [getQueueState] using hlen
  · rw [hpass]
    exact updateFirstPending_any_found _ s.queue item hfind _
      (by simp [terminalOf_id, terminalOf_terminal])
  · rw [hpass]
    exact addToHistory_head s.history (terminalOf item o) (terminalOf item o).status t

/-- Witness for the amended C1 at the counterexample input. -/
theorem C1_terminal_job_not_removed_witness :
    ((getQueueState (processQueuePass ⟨[exJob], [], false⟩ ExecOutcome.ok 5)).queue.map
        (fun it => it.id) = [exJob].map (fun it => it.id)) ∧
    (getQueueState (processQueuePass ⟨[exJob], [], false⟩ ExecOutcome.ok 5)).queue.length
        = ([exJob] : List QueueItem).length ∧
    ((getQueueState (processQueuePass ⟨[exJob], [], false⟩ ExecOutcome.ok 5)).queue.any
        (fun it => it.id == exJob.id &&
          (it.status == JobStatus.completed || it.status == JobStatus.failed))) = true ∧
    (processQueuePass ⟨[exJob], [], false⟩ ExecOutcome.ok 5).history.head?
        = some (mkHistoryEntry (terminalOf exJob ExecOutcome.ok)
            (terminalOf exJob ExecOutcome.ok).status 5) :=
  C1_terminal_job_not_removed ⟨[exJob], [], false⟩ ExecOutcome.ok 5 exJob rfl rfl

theorem countDownloading_cons (it : QueueItem) (rest : List QueueItem) :
    countDownloading (it :: rest)
      = (if it.status == JobStatus.downloading then 1 else 0)
          + countDownloading rest := by
  by_cases h : (it.status == JobStatus.downloading) = true
  · simp [countDownloading, List.filter_cons, h]
    omega
  · simp [countDownloading, List.filter_cons, h]

theorem updateFirstPending_mark_count (q : List QueueItem) :
    countDownloading (updateFirstPending
        (fun it => { it with status := JobStatus.downloading }) q)
      ≤ countDownloading q + 1 := by
  induction q with
  | nil => simp [updateFirstPending, countDownloading]
  | cons it rest ih =>
    by_cases h : (it.status == JobStatus.pending) = true
    · simp [updateFirstPending, h, countDownloading_cons]
      omega
    · simp [updateFirstPending, h, countDownloading_cons]
      omega

theorem updateFirstPending_terminal_count (o : ExecOutcome) (q : List QueueItem) :
    countDownloading (updateFirstPending (fun it => terminalOf it o) q)
      = countDownloading q := by
  induction q with
  | nil => rfl
  | cons it rest ih =>
    by_cases h : (it.status == JobStatus.pending) = true
    · have h2 : (it.status == JobStatus.downloading) = false := by
        have hs : it.status = JobStatus.pending := by simpa using h
        simp [hs]
      simp [updateFirstPending, h, countDownloading_cons,
        terminalOf_status_not_downloading, h2]
    · simp [updateFirstPending, h, countDownloading_cons, ih]

theorem processQueuePass_guard (s : QMState) (o : ExecOutcome) (t : Nat)
    (h : s.isProcessing = true) : processQueuePass s o t = s := by
  simp [processQueuePass, h]

theorem processQueueMid_at_most_one (s : QMState)
    (hp : s.isProcessing = false) (h0 : countDownloading s.queue = 0) :
    countDownloading (processQueueMid s).queue ≤ 1 := by
  unfold processQueueMid
  rw [hp]
  simp only [Bool.false_eq_true, if_false]
  cases hfind : s.queue.find? (fun it => it.status == JobStatus.pending) with
  | none => simp [h0]
  | some it =>
    have := updateFirstPending_mark_count s.queue
    simp only []
    omega

theorem processQueuePass_none_active (s : QMState) (o : ExecOutcome) (t : Nat)
    (hp : s.isProcessing = false) (h0 : countDownloading s.queue = 0) :
    countDownloading (processQueuePass s o t).queue = 0 := by
  unfold processQueuePass
  rw [hp]
  simp only [Bool.false_eq_true, if_false]
  cases hfind : s.queue.find? (fun it => it.status == JobStatus.pending) with
  | none => simpa using h0
  | some it =>
    simpa [updateFirstPending_terminal_count] using h0

theorem processQueuePass_fifo (a b c : QueueItem)
    (ha : a.status = JobStatus.pending) (hb : b.status = JobStatus.pending)
    (hc : c.status = JobStatus.pending)
    (o1 o2 o3 : ExecOutcome) (t1 t2 t3 : Nat) :
    (processQueuePass ⟨[a, b, c], [], false⟩ o1 t1).history.map (fun e => e.id)
        = [a.id] ∧
    (processQueuePass (processQueuePass ⟨[a, b, c], [], false⟩ o1 t1) o2 t2).history.map
        (fun e => e.id) = [b.id, a.id] ∧
    (processQueuePass (processQueuePass
        (processQueuePass ⟨[a, b, c], [], false⟩ o1 t1) o2 t2) o3 t3).history.map
        (fun e => e.id) = [c.id, b.id, a.id] := by
  have hfa : List.find? (fun x => x.status == JobStatus.pending) [a, b, c] = some a :=
    List.find?_cons_of_pos _ (by simp [ha])
  have h1 : processQueuePass ⟨[a, b, c], [], false⟩ o1 t1 =
      ⟨[terminalOf a o1, b, c],
        [mkHistoryEntry (terminalOf a o1) (terminalOf a o1).status t1], false⟩ := by
    simp [processQueuePass, hfa, updateFirstPending, ha, addToHistory,
      MAX_HISTORY_ENTRIES]
  have hfb : List.find? (fun x => x.status == JobStatus.pending)
      [terminalOf a o1, b, c] = some b := by
    have hn : List.find? (fun x => x.status == JobStatus.pending)
        [terminalOf a o1, b, c]
        = List.find? (fun x => x.status == JobStatus.pending) [b, c] :=
      List.find?_cons_of_neg _ (by simp [terminalOf_status_not_pending])
    rw [hn]
    exact List.find?_cons_of_pos _ (by simp [hb])
  have h2 : processQueuePass (processQueuePass ⟨[a, b, c], [], false⟩ o1 t1) o2 t2 =
      ⟨[terminalOf a o1, terminalOf b o2, c],
        [mkHistoryEntry (terminalOf b o2) (terminalOf b o2).status t2,
          mkHistoryEntry (terminalOf a o1) (terminalOf a o1).status t1], false⟩ := by
    rw [h1]
    simp [processQueuePass, hfb, updateFirstPending, terminalOf_status_not_pending,
      hb, addToHistory, MAX_HISTORY_ENTRIES]
  have hfc : List.find? (fun x => x.status == JobStatus.pending)
      [terminalOf a o1, terminalOf b o2, c] = some c := by
    have hn1 : List.find? (fun x => x.status == JobStatus.pending)
        [terminalOf a o1, terminalOf b o2, c]
        = List.find? (fun x => x.status == JobStatus.pending) [terminalOf b o2, c] :=
      List.find?_cons_of_neg _ (by simp [terminalOf_status_not_pending])
    have hn2 : List.find? (fun x => x.status == JobStatus.pending) [terminalOf b o2, c]
        = List.find? (fun x => x.status == JobStatus.pending) [c] :=
      List.find?_cons_of_neg _ (by simp [terminalOf_status_not_pending])
    rw [hn1, hn2]
    exact List.find?_cons_of_pos _ (by simp [hc])
  have h3 : processQueuePass (processQueuePass
      (processQueuePass ⟨[a, b, c], [], false⟩ o1 t1) o2 t2) o3 t3 =
      ⟨[terminalOf a o1, terminalOf b o2, terminalOf c o3],
        [mkHistoryEntry (terminalOf c o3) (terminalOf c o3).status t3,
          mkHistoryEntry (terminalOf b o2) (terminalOf b o2).status t2,
          mkHistoryEntry (terminalOf a o1) (terminalOf a o1).status t1], false⟩ := by
    rw [h2]
    simp [processQueuePass, hfc, updateFirstPending, terminalOf_status_not_pending,
      hc, addToHistory, MAX_HISTORY_ENTRIES]
  refine ⟨?_, ?_, ?_⟩
  · rw [h1]; simp [mkHistoryEntry, terminalOf_id]
  · rw [h2]; simp [mkHistoryEntry, terminalOf_id]
  · rw [h3]; simp [mkHistoryEntry, terminalOf_id]

/-- C5: the re-entrancy guard makes a pass triggered while another is
running return immediately with no mutation; from a quiescent state
(guard clear, no "downloading" job) the state observed during a pass
has at most one "downloading" job and the finished pass leaves none;
and jobs enqueued in order A, B, C, all pending, are driven to their
terminal record strictly in that order, one per pass. -/
theorem C5_serialized_fifo :
    (∀ (s : QMState) (o : ExecOutcome) (t : Nat),
      s.isProcessing = true → processQueuePass s o t = s) ∧
    (∀ s : QMState, s.isProcessing = false → countDownloading s.queue = 0 →
      countDownloading (processQueueMid s).queue ≤ 1 ∧
      ∀ (o : ExecOutcome) (t : Nat),
        countDownloading (processQueuePass s o t).queue = 0) ∧
    (∀ a b c : QueueItem,
      a.status = JobStatus.pending → b.status = JobStatus.pending →
      c.status = JobStatus.pending →
      ∀ (o1 o2 o3 : ExecOutcome) (t1 t2 t3 : Nat),
        (processQueuePass ⟨[a, b, c], [], false⟩ o1 t1).history.map (fun e => e.id)
            = [a.id] ∧
        (processQueuePass (processQueuePass ⟨[a, b, c], [], false⟩ o1 t1)
            o2 t2).history.map (fun e => e.id) = [b.id, a.id] ∧
        (processQueuePass (processQueuePass (processQueuePass
            ⟨[a, b, c], [], false⟩ o1 t1) o2 t2) o3 t3).history.map (fun e => e.id)
            = [c.id, b.id, a.id]) :=
  ⟨fun s o t h => processQueuePass_guard s o t h,
    fun s hp h0 =>
      ⟨processQueueMid_at_most_one s hp h0,
        fun o t => processQueuePass_none_active s o t hp h0⟩,
    fun a b c ha hb hc o1 o2 o3 t1 t2 t3 =>
      processQueuePass_fifo a b c ha hb hc o1 o2 o3 t1 t2 t3⟩

/-- Witness for C5 at concrete inputs: the guard drops a pass, a
single-job quiescent state never shows two active jobs, and three
concrete pending jobs are recorded in FIFO order. -/
theorem C5_serialized_fifo_witness :
    processQueuePass ⟨[exJob], [], true⟩ ExecOutcome.ok 0 = ⟨[exJob], [], true⟩ ∧
    (countDownloading (processQueueMid ⟨[exJob], [], false⟩).queue ≤ 1 ∧
      countDownloading
        (processQueuePass ⟨[exJob], [], false⟩ ExecOutcome.ok 5).queue = 0) ∧
    (processQueuePass (processQueuePass (processQueuePass
        ⟨[exJob, { exJob with id := "j2", videoId := "v2" },
          { exJob with id := "j3", videoId := "v3" }], [], false⟩
        ExecOutcome.ok 1) (ExecOutcome.failure none) 2) ExecOutcome.ok 3).history.map
        (fun e => e.id) = ["j3", "j2", "j1"] :=
  ⟨C5_serialized_fifo.1 ⟨[exJob], [], true⟩ ExecOutcome.ok 0 rfl,
    ⟨(C5_serialized_fifo.2.1 ⟨[exJob], [], false⟩ rfl rfl).1,
      (C5_serialized_fifo.2.1 ⟨[exJob], [], false⟩ rfl rfl).2 ExecOutcome.ok 5⟩,
    (C5_serialized_fifo.2.2 exJob { exJob with id := "j2", videoId := "v2" }
      { exJob with id := "j3", videoId := "v3" } rfl rfl rfl
      ExecOutcome.ok (ExecOutcome.failure none) ExecOutcome.ok 1 2 3).2.2⟩

/-- History states reachable through the operations background.js ever
applies to `downloadHistory`: the initial empty list, `addToHistory`
as invoked from `processQueue` (status "completed" or "failed" only),
`removeFromHistory`, `clearHistory` (empty), `clearFailedFromHistory`,
and the removal performed inside `retryFromHistory`. -/
inductive HistoryReachable : List HistoryEntry → Prop where
  | init : HistoryReachable []
  | recordCompleted (h : List HistoryEntry) (item : QueueItem) (t : Nat) :
      HistoryReachable h → HistoryReachable (addToHistory h item JobStatus.completed t)
  | recordFailed (h : List HistoryEntry) (item : QueueItem) (t : Nat) :
      HistoryReachable h → HistoryReachable (addToHistory h item JobStatus.failed t)
  | removeOne (h : List HistoryEntry) (id : String) :
      HistoryReachable h → HistoryReachable (removeFromHistory h id).1
  | clearAll (h : List HistoryEntry) :
      HistoryReachable h → HistoryReachable []
  | clearFailed (h : List HistoryEntry) :
      HistoryReachable h → HistoryReachable (clearFailedFromHistory h)
  | retry (h : List HistoryEntry) (q : List QueueItem) (id freshId : String) (t : Nat) :
      HistoryReachable h → HistoryReachable (retryFromHistory h q id freshId t).history

theorem mem_addToHistory (history : List HistoryEntry) (item : QueueItem)
    (status : JobStatus) (t : Nat) (e : HistoryEntry)
    (he : e ∈ addToHistory history item status t) :
    e = mkHistoryEntry item status t ∨ e ∈ history := by
  unfold addToHistory at he
  by_cases h : (mkHistoryEntry item status t :: history).length > MAX_HISTORY_ENTRIES
  · rw [if_pos h] at he
    have := List.mem_of_mem_take he
    simpa using this
  · rw [if_neg h] at he
    simpa using he

theorem removeFromHistory_subset (history : List HistoryEntry) (id : String)
    (e : HistoryEntry) (he : e ∈ (removeFromHistory history id).1) : e ∈ history := by
  unfold removeFromHistory at he
  by_cases h : history.any (fun x => x.id == id)
  · rw [if_pos h] at he
    exact (List.eraseP_sublist history).subset he
  · rw [if_neg h] at he
    exact he

theorem retryFromHistory_history_cases (history : List HistoryEntry)
    (queue : List QueueItem) (id freshId : String) (t : Nat) :
    (retryFromHistory history queue id freshId t).history = history ∨
    (retryFromHistory history queue id freshId t).history
      = (removeFromHistory history id).1 := by
  unfold retryFromHistory
  cases hfind : history.find? (fun h => h.id == id) with
  | none => exact Or.inl rfl
  | some hi =>
    by_cases hs : (hi.status != JobStatus.failed) = true
    · left
      simp [hs]
    · right
      rcases haq : addToQueue queue (retryNewItem hi freshId t) with ⟨q2, r⟩
      simp [hs, haq]

theorem historyReachable_status (h : List HistoryEntry) (hr : HistoryReachable h) :
    ∀ e ∈ h, e.status = JobStatus.completed ∨ e.status = JobStatus.failed := by
  induction hr with
  | init => intro e he; simp at he
  | recordCompleted h0 item t _ ih =>
    intro e he
    rcases mem_addToHistory h0 item JobStatus.completed t e he with heq | hm
    · subst heq; exact Or.inl rfl
    · exact ih e hm
  | recordFailed h0 item t _ ih =>
    intro e he
    rcases mem_addToHistory h0 item JobStatus.failed t e he with heq | hm
    · subst heq; exact Or.inr rfl
    · exact ih e hm
  | removeOne h0 id _ ih =>
    intro e he
    exact ih e (removeFromHistory_subset h0 id e he)
  | clearAll h0 _ _ =>
    intro e he; simp at he
  | clearFailed h0 _ ih =>
    intro e he
    exact ih e (List.mem_of_mem_filter he)
  | retry h0 q id freshId t _ ih =>
    intro e he
    rcases retryFromHistory_history_cases h0 q id freshId t with hcase | hcase
    · rw [hcase] at he; exact ih e he
    · rw [hcase] at he
      exact ih e (removeFromHistory_subset h0 id e he)

theorem filter_status_partition (h : List HistoryEntry)
    (hall : ∀ e ∈ h, e.status = JobStatus.completed ∨ e.status = JobStatus.failed) :
    (h.filter (fun e => e.status == JobStatus.completed)).length
      + (h.filter (fun e => e.status == JobStatus.failed)).length = h.length := by
  induction h with
  | nil => rfl
  | cons e rest ih =>
    have he := hall e (by simp)
    have ihr := ih (fun x hx => hall x (by simp [hx]))
    rcases he with hcp | hfl
    · simp [List.filter_cons, hcp]
      omega
    · simp [List.filter_cons, hfl]
      omega

/-- C10: every entry ever inserted into the history list carries
status "completed" or "failed", so in every reachable history state
the `totalCompleted` and `totalFailed` counts of `getHistory`
partition the list: their sum equals the number of entries. -/
theorem C10_history_partition (h : List HistoryEntry) (hr : HistoryReachable h) :
    (getHistory h).totalCompleted + (getHistory h).totalFailed = h.length :=
  filter_status_partition h (historyReachable_status h hr)

/-- Witness for C10: one completed record on the empty history. -/
theorem C10_history_partition_witness :
    (getHistory (addToHistory [] exJob JobStatus.completed 0)).totalCompleted
      + (getHistory (addToHistory [] exJob JobStatus.completed 0)).totalFailed
      = (addToHistory [] exJob JobStatus.completed 0).length :=
  C10_history_partition (addToHistory [] exJob JobStatus.completed 0)
    (HistoryReachable.recordCompleted [] exJob 0 HistoryReachable.init)

end Ytdl
